import Mathlib

/-!
Verification development for the Sanskrit-student translation core.

The TypeScript source is shallowly embedded:

* `ScriptDetectorImpl.detect` (src/domain/script-detector.ts) becomes `detect`,
  parametrized by the predicate `isLatin` standing for the host regex
  `/\p{Script=Latin}/u` (a platform Unicode table; every fact we need about it,
  such as disjointness from the Devanagari block, is taken as a hypothesis).
* `ScriptNormalizerImpl.normalize` (script-normalizer.ts) becomes `normalize`,
  parametrized by the injected converter port `toIast`.
* `ClaudeLlmClient.parseResponse` / `extractJson` / `validateResponse` /
  `validateWordEntry` (embedded source of claude-llm-client.ts in
  current-plan.md) become functions over a `Json` value type; the platform
  primitive `JSON.parse` is the parameter `jsonParse : String → Option Json`
  (`none` models a thrown SyntaxError).
* `HybridTranslationService.translate` (llm-translation-service.ts) becomes
  `hybridTranslate`; the two collaborator ports are function parameters and the
  embedding additionally returns a `CallLog` recording, in order, the inputs of
  every collaborator invocation the control flow performs.
* `NormalizingTranslationService.translate`
  (normalizing-translation-service.ts) becomes `normalizingTranslate`.

JavaScript `async`/`await` with purely sequential control flow is embedded as
direct state passing; a thrown exception is `Except.error` carrying the error
message.
-/

namespace Sanskrit

/-- Structure `DictionaryDefinition` from src/domain/dictionary-client.ts. -/
structure DictionaryDefinition where
  source : String
  definition : String
deriving Repr, DecidableEq

/-- Structure `WordEntry` from src/domain/types.ts (shape per the spec data model and
enhanced-types.test.ts): optional TypeScript fields become `Option`. -/
structure WordEntry where
  word : String
  grammaticalForm : Option String
  meanings : List String
  dictionaryDefinitions : Option (List DictionaryDefinition)
  contextualNote : Option String
deriving Repr, DecidableEq

/-- Structure `TranslationResult` from src/domain/types.ts. A TypeScript field that is
`undefined` (absent) is `none`. -/
structure TranslationResult where
  originalText : List String
  iastText : List String
  words : List WordEntry
  alternativeTranslations : Option (List String)
  warnings : Option (List String)
deriving Repr, DecidableEq

/-- Structure `LlmTranslationResponse` from src/domain/llm-client.ts: the model port's
reply, `{ words: WordEntry[], alternativeTranslations?: string[] }`. -/
structure LlmTranslationResponse where
  words : List WordEntry
  alternativeTranslations : Option (List String)
deriving Repr, DecidableEq

/-- The JavaScript primitive `text.split('\n')` over the code-point list:
each `'\n'` separates two chunks, so n separators yield n+1 chunks and the
empty string yields `[[]]`. (Lean's byte-position `String.split` is not
kernel-computable, so the embedding recurses structurally.) -/
def splitNlGo : List Char → List (List Char)
  | [] => [[]]
  | c :: cs =>
    let rest := splitNlGo cs
    if c = '\n' then [] :: rest
    else
      match rest with
      | [] => [[c]]
      | p :: ps => (c :: p) :: ps

/-- The primitive `text.split('\n')` as a list of strings. -/
def jsSplitNewline (text : String) : List String :=
  (splitNlGo text.data).map String.mk

/-- The JavaScript primitive `line.trim()`: strip leading and trailing
whitespace code points. -/
def jsTrim (s : String) : String :=
  String.mk (((s.data.dropWhile Char.isWhitespace).reverse.dropWhile
    Char.isWhitespace).reverse)

/-- Function `normalizeToLines` from src/domain/text-normalizer.ts:
`text.split('\n').filter(line => line.trim().length > 0)`.
`HybridTranslationService` and `NormalizingTranslationService` inline the
identical expression. -/
def normalizeToLines (text : String) : List String :=
  (jsSplitNewline text).filter (fun line => 0 < (jsTrim line).length)

/-! ## Script detection (src/domain/script-detector.ts) -/

/-- Union `ScriptType` from src/domain/script-detector.ts. -/
inductive ScriptType where
  | devanagari
  | iast
  | mixed
deriving Repr, DecidableEq

/-- Method `ScriptDetectorImpl.isDevanagari`: code point in U+0900–U+097F. -/
def isDevanagariChar (c : Char) : Bool :=
  0x0900 ≤ c.toNat && c.toNat ≤ 0x097F

/-- The character-scanning loop of `ScriptDetectorImpl.detect`: per character,
`if (isDevanagari) hasDevanagari = true; else if (isLatin) hasLatin = true;`
then short-circuit to `mixed` once both flags hold. -/
def detectGo (isLatin : Char → Bool) : List Char → Bool → Bool → ScriptType
  | [], hasDevanagari, _hasLatin =>
    if hasDevanagari then ScriptType.devanagari else ScriptType.iast
  | c :: cs, hasDevanagari, hasLatin =>
    let hasDevanagari2 := hasDevanagari || isDevanagariChar c
    let hasLatin2 := if isDevanagariChar c then hasLatin else hasLatin || isLatin c
    if hasDevanagari2 && hasLatin2 then ScriptType.mixed
    else detectGo isLatin cs hasDevanagari2 hasLatin2

/-- Method `ScriptDetectorImpl.detect`, parametrized by the `\p{Script=Latin}` test. -/
def detect (isLatin : Char → Bool) (text : String) : ScriptType :=
  detectGo isLatin text.data false false

/-- Concrete stand-in for the Unicode Script=Latin table, used to run the
parametrized definitions on concrete inputs: ASCII letters plus the Latin
Extended Additional block (U+1E00–U+1EFF) carrying the IAST diacritics. -/
def isLatinModel (c : Char) : Bool :=
  (0x41 ≤ c.toNat && c.toNat ≤ 0x5A) ||
  (0x61 ≤ c.toNat && c.toNat ≤ 0x7A) ||
  (0x1E00 ≤ c.toNat && c.toNat ≤ 0x1EFF)

/-! ## Script normalization (script-normalizer.ts, src/unnamed/part_003) -/

/-- Union `NormalizationResult` from script-normalizer.ts. -/
inductive NormalizationResult where
  | success (iast : String) (originalScript : ScriptType)
  | failure (error : String)
deriving Repr, DecidableEq

/-- The fixed mixed-script error message of `ScriptNormalizerImpl.normalize`. -/
def mixedScriptMessage : String :=
  "Mixed script input is not supported. Please provide text in either Devanagari or IAST format, not both."

/-- Method `ScriptNormalizerImpl.normalize`, parametrized by the detector's Latin
table and the injected `ScriptConverter.toIast` port. -/
def normalize (isLatin : Char → Bool) (toIast : String → String)
    (text : String) : NormalizationResult :=
  match detect isLatin text with
  | ScriptType.mixed => NormalizationResult.failure mixedScriptMessage
  | ScriptType.devanagari => NormalizationResult.success (toIast text) ScriptType.devanagari
  | ScriptType.iast => NormalizationResult.success text ScriptType.iast

/-! ## JSON values and the model-response parser
(ClaudeLlmClient, embedded source in src/current-plan.md) -/

/-- JavaScript values produced by `JSON.parse`. A number carries its JavaScript
string rendering (no claim depends on numeric arithmetic, and IEEE semantics is
out of scope). `JSON.parse` yields objects with unique keys (a duplicate key is
overwritten), so field lists are read with first-match lookup. -/
inductive Json where
  | null
  | bool (b : Bool)
  | num (render : String)
  | str (s : String)
  | arr (elems : List Json)
  | obj (fields : List (String × Json))
deriving Repr

/-- Field read on a parsed JSON value: `'k' in v` plus `v[k]`. Non-objects
(including arrays and `null`) have none of the string keys used here. -/
def jsonField (v : Json) (key : String) : Option Json :=
  match v with
  | Json.obj fields => fields.lookup key
  | _ => none

mutual
/-- The JavaScript `String(x)` coercion used by `validateWordEntry`:
`String(null) = "null"`, booleans and numbers render themselves, strings pass
through, an array renders as its elements joined by `","` (with a `null`
element rendering empty inside a join), an object as `"[object Object]"`. -/
def jsToString : Json → String
  | Json.null => "null"
  | Json.bool true => "true"
  | Json.bool false => "false"
  | Json.num render => render
  | Json.str s => s
  | Json.arr elems => jsToStringJoin elems
  | Json.obj _ => "[object Object]"

/-- The primitive `Array.prototype.join(',')` on stringified elements. -/
def jsToStringJoin : List Json → String
  | [] => ""
  | [Json.null] => ""
  | [x] => jsToString x
  | Json.null :: xs => "," ++ jsToStringJoin xs
  | x :: xs => jsToString x ++ "," ++ jsToStringJoin xs
end

/-- A content block of the model reply (`Anthropic.Message.content` element):
either a text block or some other block kind. -/
inductive ContentBlock where
  | text (body : String)
  | other
deriving Repr, DecidableEq

/-- The model reply envelope passed to `ClaudeLlmClient.parseResponse`. -/
structure AnthropicMessage where
  content : List ContentBlock
deriving Repr, DecidableEq

/-- The search `response.content.find(block => block.type === 'text')`. -/
def findTextBlock : List ContentBlock → Option String
  | [] => none
  | ContentBlock.text body :: _ => some body
  | ContentBlock.other :: rest => findTextBlock rest

/-- The backtick character (U+0060). -/
def tickChar : Char := Char.ofNat 0x60

/-- Scans to the first occurrence of three consecutive backticks and returns
the remainder after them. -/
def findTicks : List Char → Option (List Char)
  | a :: b :: c :: rest =>
    if a = tickChar ∧ b = tickChar ∧ c = tickChar then some rest
    else findTicks (b :: c :: rest)
  | _ => none

/-- Consumes the optional `json` tag of a fenced block, `(?:json)?`. -/
def stripJsonTag : List Char → List Char
  | 'j' :: 's' :: 'o' :: 'n' :: rest => rest
  | l => l

/-- Collects characters up to (excluding) the next run of three backticks,
the lazy `([\s\S]*?)` of the fence regex; `none` when the fence never
closes. -/
def takeUntilTicks : List Char → Option (List Char)
  | a :: b :: c :: rest =>
    if a = tickChar ∧ b = tickChar ∧ c = tickChar then some []
    else (takeUntilTicks (b :: c :: rest)).map (fun inner => a :: inner)
  | _ => none

/-- The group captured by `text.match(/(three backticks)(?:json)?\s*([\s\S]*?)(three backticks)/)`.
A later fence can only close if the first one does, so matching from the first
fence only is faithful to the regex engine's backtracking. -/
def fenceInner (l : List Char) : Option (List Char) :=
  match findTicks l with
  | none => none
  | some rest => takeUntilTicks ((stripJsonTag rest).dropWhile Char.isWhitespace)

/-- Method `ClaudeLlmClient.extractJson`: the fenced payload, trimmed, when a fenced
code block is present; the whole text, trimmed, otherwise. -/
def extractJson (text : String) : String :=
  match fenceInner text.data with
  | some inner => jsTrim (String.mk inner)
  | none => jsTrim text

/-- Message of the `EmptyResponse` failure category. -/
def emptyResponseMessage : String := "Empty response from Claude"

/-- Message of the `ParseError` failure category. -/
def parseFailureMessage : String := "Failed to parse Claude response"

/-- Message of the `InvalidStructure` failure category. -/
def missingWordsMessage : String := "Invalid response structure: missing words array"

/-- Message of the `InvalidEntry` failure category. -/
def invalidEntryMessage : String := "Invalid word entry structure"

/-- Method `ClaudeLlmClient.validateWordEntry`: the element must be an object carrying
`word`, `grammaticalForm` and `meanings`; `word` and `grammaticalForm` are
string-coerced, `meanings` is mapped to strings when it is an array and wrapped
in a singleton otherwise. -/
def validateWordEntry (entry : Json) : Except String WordEntry :=
  match entry with
  | Json.obj fields =>
    match fields.lookup "word", fields.lookup "grammaticalForm", fields.lookup "meanings" with
    | some w, some g, some m =>
      Except.ok
        { word := jsToString w
          grammaticalForm := some (jsToString g)
          meanings := match m with
            | Json.arr elems => elems.map jsToString
            | v => [jsToString v]
          dictionaryDefinitions := none
          contextualNote := none }
    | _, _, _ => Except.error invalidEntryMessage
  | _ => Except.error invalidEntryMessage

/-- Method `ClaudeLlmClient.isValidResponse`: the parsed value is a non-null object
whose `words` field holds an array. -/
def wordsField (parsed : Json) : Option (List Json) :=
  match jsonField parsed "words" with
  | some (Json.arr ws) => some ws
  | _ => none

/-- Method `ClaudeLlmClient.validateResponse`: reject without a `words` array,
otherwise validate every element left to right, failing on the first bad one
(`Array.prototype.map` over a throwing callback). The returned object carries
only `words`; it has no `alternativeTranslations` field. -/
def validateResponse (parsed : Json) : Except String LlmTranslationResponse :=
  match wordsField parsed with
  | none => Except.error missingWordsMessage
  | some ws =>
    match ws.mapM validateWordEntry with
    | Except.error e => Except.error e
    | Except.ok entries => Except.ok { words := entries, alternativeTranslations := none }

/-- Method `ClaudeLlmClient.parseResponse`, parametrized by the platform primitive
`JSON.parse` (`jsonParse s = none` models a thrown SyntaxError, caught by
`parseJson` and rethrown as the fixed `ParseError` message). -/
def parseResponse (jsonParse : String → Option Json)
    (response : AnthropicMessage) : Except String LlmTranslationResponse :=
  if response.content.isEmpty then Except.error emptyResponseMessage
  else
    match findTextBlock response.content with
    | none => Except.error emptyResponseMessage
    | some body =>
      match jsonParse (extractJson body) with
      | none => Except.error parseFailureMessage
      | some parsed => validateResponse parsed

/-! ## Orchestrators -/

/-- Instrumentation of the embedding: the inputs of every model-port and
dictionary-port invocation, in call order. -/
structure CallLog where
  llmCalls : List String
  dictCalls : List (List String)
deriving Repr, DecidableEq

/-- The fixed degraded-mode warning of `HybridTranslationService.translate`. -/
def dictionaryUnavailableWarning : String :=
  "Dictionary API unavailable - showing LLM-only translations"

/-- Method `HybridTranslationService.translate` (src/adapters/llm-translation-service.ts):
model call first; its failure propagates with no dictionary call. Then the
dictionary port is invoked on the model's word list; its failure is absorbed by
substituting an empty map and recording the fixed warning. Every entry is then
spread with `dictionaryDefinitions: dictResults.get(word) || []`. -/
def hybridTranslate (llm : String → Except String LlmTranslationResponse)
    (dict : List String → Except String (List (String × List DictionaryDefinition)))
    (sutra : String) : Except String TranslationResult × CallLog :=
  match llm sutra with
  | Except.error e => (Except.error e, { llmCalls := [sutra], dictCalls := [] })
  | Except.ok llmResponse =>
    let words := llmResponse.words.map (fun w => w.word)
    let dictOutcome := dict words
    let dictResults : List (String × List DictionaryDefinition) :=
      match dictOutcome with
      | Except.ok m => m
      | Except.error _ => []
    let warnings : Option (List String) :=
      match dictOutcome with
      | Except.ok _ => none
      | Except.error _ => some [dictionaryUnavailableWarning]
    let enhancedWords := llmResponse.words.map (fun llmWord =>
      { llmWord with dictionaryDefinitions := some ((dictResults.lookup llmWord.word).getD []) })
    (Except.ok
      { originalText := normalizeToLines sutra
        iastText := normalizeToLines sutra
        words := enhancedWords
        alternativeTranslations := llmResponse.alternativeTranslations
        warnings := warnings },
     { llmCalls := [sutra], dictCalls := [words] })

/-- The two error species the top-level `translate` can reject with: the
`TranslationError` raised on a normalization failure, or an error propagated
unmodified from the delegate (in the composed stack, a model-service error). -/
inductive PipelineError where
  | inputError (message : String)
  | serviceError (message : String)
deriving Repr, DecidableEq

/-- Method `NormalizingTranslationService.translate`
(src/adapters/normalizing-translation-service.ts, first revision): normalize;
on failure throw `TranslationError` before any delegate work; on success
delegate on the normalized text, then override `originalText`/`iastText` by
line-splitting the raw and the normalized input. -/
def normalizingTranslate (normalizer : String → NormalizationResult)
    (delegate : String → Except String TranslationResult × CallLog)
    (sutra : String) : Except PipelineError TranslationResult × CallLog :=
  match normalizer sutra with
  | NormalizationResult.failure err =>
    (Except.error (PipelineError.inputError err), { llmCalls := [], dictCalls := [] })
  | NormalizationResult.success iast _ =>
    match delegate iast with
    | (Except.error e, log) => (Except.error (PipelineError.serviceError e), log)
    | (Except.ok result, log) =>
      (Except.ok
        { result with
          originalText := normalizeToLines sutra
          iastText := normalizeToLines iast },
       log)

/-! ## Concrete collaborator instances, mirroring the test doubles of
tests/unit/hybrid-fallback.test.ts, for running the parametrized embedding on
concrete inputs. -/

/-- A fixed model-reply entry, as produced by `MockLlmClient`. -/
def mockEntryA : WordEntry :=
  { word := "a", grammaticalForm := some "g", meanings := ["m"],
    dictionaryDefinitions := none, contextualNote := some "n" }

/-- A fixed model reply with one entry and one alternative translation. -/
def mockLlmResponse : LlmTranslationResponse :=
  { words := [mockEntryA], alternativeTranslations := some ["alt"] }

/-- A model port that always succeeds with `mockLlmResponse`. -/
def mockLlm : String → Except String LlmTranslationResponse :=
  fun _ => Except.ok mockLlmResponse

/-- Test double `FailingLlmClient` of hybrid-fallback.test.ts. -/
def failingLlm : String → Except String LlmTranslationResponse :=
  fun _ => Except.error "LLM service unavailable"

/-- Test double `FailingDictionaryClient` of hybrid-fallback.test.ts. -/
def failingDict : List String → Except String (List (String × List DictionaryDefinition)) :=
  fun _ => Except.error "Dictionary API unavailable"

/-- A one-word dictionary map resolving `"a"` with one PWG definition. -/
def okDictMap : List (String × List DictionaryDefinition) :=
  [("a", [{ source := "PWG Dictionary", definition := "union" }])]

/-- A dictionary port that always resolves with `okDictMap`. -/
def okDict : List String → Except String (List (String × List DictionaryDefinition)) :=
  fun _ => Except.ok okDictMap

/-- A word-entry JSON object that carries a model-supplied contextual note. -/
def noteEntryJson : Json :=
  Json.obj [("word", Json.str "a"), ("grammaticalForm", Json.str "g"),
    ("meanings", Json.arr [Json.str "m"]), ("contextualNote", Json.str "n")]

/-- A parsed model reply carrying both a contextual note and alternative
translations. -/
def noteParsedJson : Json :=
  Json.obj [("words", Json.arr [noteEntryJson]),
    ("alternativeTranslations", Json.arr [Json.str "alt"])]

/-- The entry list `validateResponse` produces from `noteParsedJson`. -/
def noteParsedResponse : LlmTranslationResponse :=
  { words := [{ word := "a", grammaticalForm := some "g", meanings := ["m"],
                dictionaryDefinitions := none, contextualNote := none }],
    alternativeTranslations := none }

/-- A stand-in for `JSON.parse` on concrete runs: maps the token "obj" to the
empty JSON object and fails on everything else. -/
def jsonParseModel : String → Option Json :=
  fun s => if s = "obj" then some (Json.obj []) else none

/-! ## Helper lemmas -/

/-- Closed form of the detector's scanning loop: starting from flag values that
are not yet jointly true, the loop returns `mixed` exactly when both script
classes end up witnessed, and otherwise classifies by the Devanagari flag.
Needs the Latin table to be disjoint from the Devanagari block, as the Unicode
script property is. -/
theorem detectGo_eq (isLatin : Char → Bool)
    (hdisj : ∀ c, isDevanagariChar c = true → isLatin c = false) :
    ∀ (cs : List Char) (hasDev hasLat : Bool), (hasDev && hasLat) = false →
    detectGo isLatin cs hasDev hasLat =
      (if (hasDev || cs.any isDevanagariChar) && (hasLat || cs.any isLatin) then
        ScriptType.mixed
      else if hasDev || cs.any isDevanagariChar then ScriptType.devanagari
      else ScriptType.iast) := by
  intro cs
  induction cs with
  | nil =>
    intro hasDev hasLat h
    cases hasDev <;> cases hasLat <;> simp_all [detectGo]
  | cons c cs ih =>
    intro hasDev hasLat h
    cases hdev : isDevanagariChar c with
    | true =>
      have hlat0 : isLatin c = false := hdisj c hdev
      cases hasDev <;> cases hasLat <;>
        simp_all [detectGo, List.any_cons, ih]
    | false =>
      cases hlat : isLatin c <;> cases hasDev <;> cases hasLat <;>
        simp_all [detectGo, List.any_cons, ih]

/-- Binding `Except` on a success runs the continuation. -/
theorem exceptBind_ok {ε α β : Type} (b : α) (k : α → Except ε β) :
    (Except.ok b : Except ε α) >>= k = k b := rfl

/-- Binding `Except` on an error short-circuits. -/
theorem exceptBind_error {ε α β : Type} (e : ε) (k : α → Except ε β) :
    (Except.error e : Except ε α) >>= k = Except.error e := rfl

/-- Lifting `pure` into `Except` is `ok`. -/
theorem exceptPure {ε β : Type} (b : β) :
    (pure b : Except ε β) = Except.ok b := rfl

/-- A successful `mapM` over `Except` preserves the length. -/
theorem exceptMapM_ok_length {ε α β : Type} (f : α → Except ε β) :
    ∀ (l : List α) (res : List β), l.mapM f = Except.ok res → res.length = l.length := by
  intro l
  induction l with
  | nil =>
    intro res h
    simp only [List.mapM_nil, exceptPure] at h
    injection h with h2
    subst h2
    rfl
  | cons a l ih =>
    intro res h
    rw [List.mapM_cons] at h
    cases hfa : f a with
    | error e =>
      simp only [hfa, exceptBind_error] at h
      exact Except.noConfusion h
    | ok b =>
      simp only [hfa, exceptBind_ok] at h
      cases hml : l.mapM f with
      | error e =>
        simp only [hml, exceptBind_error] at h
        exact Except.noConfusion h
      | ok bs =>
        simp only [hml, exceptBind_ok, exceptPure] at h
        injection h with h2
        subst h2
        simp [ih bs hml]

/-- Every element of a successful `mapM` image over `Except` comes from some
element of the source. -/
theorem exceptMapM_ok_mem {ε α β : Type} (f : α → Except ε β) :
    ∀ (l : List α) (res : List β), l.mapM f = Except.ok res →
      ∀ b ∈ res, ∃ a ∈ l, f a = Except.ok b := by
  intro l
  induction l with
  | nil =>
    intro res h b hb
    simp only [List.mapM_nil, exceptPure] at h
    injection h with h2
    subst h2
    simp at hb
  | cons a l ih =>
    intro res h b hb
    rw [List.mapM_cons] at h
    cases hfa : f a with
    | error e =>
      simp only [hfa, exceptBind_error] at h
      exact Except.noConfusion h
    | ok b0 =>
      simp only [hfa, exceptBind_ok] at h
      cases hml : l.mapM f with
      | error e =>
        simp only [hml, exceptBind_error] at h
        exact Except.noConfusion h
      | ok bs =>
        simp only [hml, exceptBind_ok, exceptPure] at h
        injection h with h2
        subst h2
        rcases List.mem_cons.mp hb with hb0 | hbs
        · exact ⟨a, List.mem_cons_self a l, by rw [hfa, hb0]⟩
        · rcases ih bs hml b hbs with ⟨a2, ha2, hfa2⟩
          exact ⟨a2, List.mem_cons_of_mem a ha2, hfa2⟩

/-- A failing `mapM` over `Except` fails with an error produced by `f` on some
element of the source. -/
theorem exceptMapM_error {ε α β : Type} (f : α → Except ε β) :
    ∀ (l : List α) (e : ε), l.mapM f = Except.error e →
      ∃ a ∈ l, f a = Except.error e := by
  intro l
  induction l with
  | nil =>
    intro e h
    simp only [List.mapM_nil, exceptPure] at h
    exact Except.noConfusion h
  | cons a l ih =>
    intro e h
    rw [List.mapM_cons] at h
    cases hfa : f a with
    | error e0 =>
      simp only [hfa, exceptBind_error] at h
      injection h with h2
      exact ⟨a, List.mem_cons_self a l, by rw [hfa, h2]⟩
    | ok b =>
      simp only [hfa, exceptBind_ok] at h
      cases hml : l.mapM f with
      | error e0 =>
        simp only [hml, exceptBind_error] at h
        injection h with h2
        rcases ih e0 hml with ⟨a2, ha2, hfa2⟩
        exact ⟨a2, List.mem_cons_of_mem a ha2, by rw [hfa2, h2]⟩
      | ok bs =>
        simp only [hml, exceptBind_ok, exceptPure] at h
        exact Except.noConfusion h

/-- The only error `validateWordEntry` ever produces is the fixed
invalid-entry message. -/
theorem validateWordEntry_error_msg (entry : Json) (e : String)
    (h : validateWordEntry entry = Except.error e) : e = invalidEntryMessage := by
  cases entry <;> try (injection h with h2; exact h2.symm)
  case obj fields =>
    rcases hw : fields.lookup "word" with _ | wv <;>
      rcases hg : fields.lookup "grammaticalForm" with _ | gv <;>
        rcases hm : fields.lookup "meanings" with _ | mv <;>
          simp only [validateWordEntry, hw, hg, hm] at h <;>
            first
              | exact Except.noConfusion h
              | (injection h with h2; exact h2.symm)

/-- A word entry accepted by `validateWordEntry` carries no contextual note,
no dictionary definitions, and a present grammatical form. -/
theorem validateWordEntry_ok_shape (entry : Json) (w : WordEntry)
    (h : validateWordEntry entry = Except.ok w) :
    w.contextualNote = none ∧ w.dictionaryDefinitions = none ∧
      w.grammaticalForm.isSome = true := by
  cases entry <;> try exact Except.noConfusion h
  case obj fields =>
    rcases hw : fields.lookup "word" with _ | wv <;>
      rcases hg : fields.lookup "grammaticalForm" with _ | gv <;>
        rcases hm : fields.lookup "meanings" with _ | mv <;>
          simp only [validateWordEntry, hw, hg, hm] at h <;>
            first
              | exact Except.noConfusion h
              | (injection h with h2; subst h2; exact ⟨rfl, rfl, rfl⟩)

/-! ## Claim theorems -/

/-- C5: for every string, `detect` returns `mixed` exactly when the string
contains both a Devanagari-block code point and a Latin-script code point; when
it does not, the result is `devanagari` exactly when some Devanagari code point
occurs and `iast` otherwise, which also covers the empty and the all-neutral
string. Stated for every Latin table disjoint from the Devanagari block, as
Unicode's `Script=Latin` property is. -/
theorem detect_classification (isLatin : Char → Bool)
    (hdisj : ∀ c, isDevanagariChar c = true → isLatin c = false) (s : String) :
    (detect isLatin s = ScriptType.mixed ↔
      (s.data.any isDevanagariChar = true ∧ s.data.any isLatin = true)) ∧
    detect isLatin s =
      (if s.data.any isDevanagariChar && s.data.any isLatin then ScriptType.mixed
       else if s.data.any isDevanagariChar then ScriptType.devanagari
       else ScriptType.iast) := by
  have h := detectGo_eq isLatin hdisj s.data false false (by simp)
  simp only [Bool.false_or] at h
  constructor
  · unfold detect
    rw [h]
    cases hd : s.data.any isDevanagariChar <;> cases hl : s.data.any isLatin <;> simp
  · unfold detect
    rw [h]

/-- Witness for C5 at the concrete Latin table `isLatinModel` and the concrete
mixed-script string `"aक"`. -/
theorem detect_classification_witness :
    (detect isLatinModel "aक" = ScriptType.mixed ↔
      ("aक".data.any isDevanagariChar = true ∧ "aक".data.any isLatinModel = true)) ∧
    detect isLatinModel "aक" =
      (if "aक".data.any isDevanagariChar && "aक".data.any isLatinModel then ScriptType.mixed
       else if "aक".data.any isDevanagariChar then ScriptType.devanagari
       else ScriptType.iast) :=
  detect_classification isLatinModel
    (by
      intro c hc
      have h1 : 0x0900 ≤ c.toNat ∧ c.toNat ≤ 0x097F := by
        simpa [isDevanagariChar, Bool.and_eq_true, decide_eq_true_eq] using hc
      unfold isLatinModel
      rw [Bool.eq_false_iff]
      intro habs
      simp only [Bool.or_eq_true, Bool.and_eq_true, decide_eq_true_eq] at habs
      omega)
    "aक"

/-- C6: `normalize` is a total function (the embedding returns a
`NormalizationResult` on every input, never an exception) that case-splits on
the detected script: `mixed` yields the fixed failure message, `devanagari`
yields `Success` carrying the converted text, `iast` passes the text through
byte-identically; moreover `Failure` arises only on `mixed` and only with the
fixed message. -/
theorem normalize_case_analysis (isLatin : Char → Bool) (toIast : String → String)
    (text : String) :
    (detect isLatin text = ScriptType.mixed →
      normalize isLatin toIast text = NormalizationResult.failure mixedScriptMessage) ∧
    (detect isLatin text = ScriptType.devanagari →
      normalize isLatin toIast text =
        NormalizationResult.success (toIast text) ScriptType.devanagari) ∧
    (detect isLatin text = ScriptType.iast →
      normalize isLatin toIast text = NormalizationResult.success text ScriptType.iast) ∧
    (∀ err, normalize isLatin toIast text = NormalizationResult.failure err →
      detect isLatin text = ScriptType.mixed ∧ err = mixedScriptMessage) := by
  unfold normalize
  cases h : detect isLatin text <;> simp_all

/-- Witness for C6 at the concrete Latin table, the identity converter and the
concrete mixed-script string `"aक"`. -/
theorem normalize_case_analysis_witness :
    (detect isLatinModel "aक" = ScriptType.mixed →
      normalize isLatinModel id "aक" = NormalizationResult.failure mixedScriptMessage) ∧
    (detect isLatinModel "aक" = ScriptType.devanagari →
      normalize isLatinModel id "aक" =
        NormalizationResult.success (id "aक") ScriptType.devanagari) ∧
    (detect isLatinModel "aक" = ScriptType.iast →
      normalize isLatinModel id "aक" = NormalizationResult.success "aक" ScriptType.iast) ∧
    (∀ err, normalize isLatinModel id "aक" = NormalizationResult.failure err →
      detect isLatinModel "aक" = ScriptType.mixed ∧ err = mixedScriptMessage) :=
  normalize_case_analysis isLatinModel id "aक"

/-- C2: when the model port rejects, `translate` rejects with that very error,
the model port was called exactly once with the input, and the dictionary port
was called zero times; moreover (second conjunct, any run) the dictionary port
is only ever invoked with the word list of the model port's resolved reply, so
it can never run before the model call has fully resolved. -/
theorem hybrid_llm_failure_propagates
    (llm : String → Except String LlmTranslationResponse)
    (dict : List String → Except String (List (String × List DictionaryDefinition)))
    (sutra e : String) (h : llm sutra = Except.error e) :
    hybridTranslate llm dict sutra =
      (Except.error e, { llmCalls := [sutra], dictCalls := [] }) ∧
    (∀ (llm2 : String → Except String LlmTranslationResponse)
       (dict2 : List String → Except String (List (String × List DictionaryDefinition)))
       (sutra2 : String),
      (hybridTranslate llm2 dict2 sutra2).2.dictCalls =
        (match llm2 sutra2 with
         | Except.error _ => []
         | Except.ok resp => [resp.words.map (fun w => w.word)])) := by
  constructor
  · unfold hybridTranslate
    rw [h]
  · intro llm2 dict2 sutra2
    unfold hybridTranslate
    cases llm2 sutra2 <;> simp

/-- Witness for C2: the always-failing model port of hybrid-fallback.test.ts
yields the propagated error and an empty dictionary call log. -/
theorem hybrid_llm_failure_propagates_witness :
    hybridTranslate failingLlm okDict "x" =
      (Except.error "LLM service unavailable",
        { llmCalls := ["x"], dictCalls := [] }) :=
  (hybrid_llm_failure_propagates failingLlm okDict "x" "LLM service unavailable" rfl).1

/-- C7: when normalization fails (mixed script), the top-level composed
`translate` rejects with the input error and the call log is empty: neither
the model port nor the dictionary port is ever invoked. -/
theorem normalizing_failure_no_collaborator_calls
    (isLatin : Char → Bool) (toIast : String → String)
    (llm : String → Except String LlmTranslationResponse)
    (dict : List String → Except String (List (String × List DictionaryDefinition)))
    (sutra err : String)
    (h : normalize isLatin toIast sutra = NormalizationResult.failure err) :
    normalizingTranslate (normalize isLatin toIast) (hybridTranslate llm dict) sutra =
      (Except.error (PipelineError.inputError err),
        { llmCalls := [], dictCalls := [] }) := by
  unfold normalizingTranslate
  rw [h]

/-- Witness for C7 on the concrete mixed-script input `"aक"`. -/
theorem normalizing_failure_no_collaborator_calls_witness :
    normalizingTranslate (normalize isLatinModel id) (hybridTranslate mockLlm okDict) "aक" =
      (Except.error (PipelineError.inputError mixedScriptMessage),
        { llmCalls := [], dictCalls := [] }) :=
  normalizing_failure_no_collaborator_calls isLatinModel id mockLlm okDict "aक"
    mixedScriptMessage rfl

/-- C1 counterexample: on a dictionary failure the merge still runs against an
empty map, so every returned entry has `dictionaryDefinitions` present and
equal to the empty list — not absent as the claim states. -/
theorem hybrid_dict_failure_defs_not_absent :
    (hybridTranslate mockLlm failingDict "x").1 =
      Except.ok
        { originalText := ["x"]
          iastText := ["x"]
          words := [{ word := "a", grammaticalForm := some "g", meanings := ["m"],
                      dictionaryDefinitions := some [], contextualNote := some "n" }]
          alternativeTranslations := some ["alt"]
          warnings := some [dictionaryUnavailableWarning] } ∧
    some ([] : List DictionaryDefinition) ≠ (none : Option (List DictionaryDefinition)) := by
  exact ⟨rfl, by simp⟩

/-- C1 as amended: on a dictionary failure no partial data is merged — every
entry's `dictionaryDefinitions` is set to the empty list (never to any looked
up value), the rest of each entry is unchanged, and the single fixed warning is
recorded. -/
theorem hybrid_dict_failure_no_partial_merge
    (llm : String → Except String LlmTranslationResponse)
    (dict : List String → Except String (List (String × List DictionaryDefinition)))
    (sutra : String) (resp : LlmTranslationResponse) (e : String)
    (h1 : llm sutra = Except.ok resp)
    (h2 : dict (resp.words.map (fun w => w.word)) = Except.error e) :
    (hybridTranslate llm dict sutra).1 =
      Except.ok
        { originalText := normalizeToLines sutra
          iastText := normalizeToLines sutra
          words := resp.words.map (fun w => { w with dictionaryDefinitions := some [] })
          alternativeTranslations := resp.alternativeTranslations
          warnings := some [dictionaryUnavailableWarning] } ∧
    (∀ r, (hybridTranslate llm dict sutra).1 = Except.ok r →
      ∀ w ∈ r.words, w.dictionaryDefinitions = some []) := by
  have hmain : (hybridTranslate llm dict sutra).1 =
      Except.ok
        { originalText := normalizeToLines sutra
          iastText := normalizeToLines sutra
          words := resp.words.map (fun w => { w with dictionaryDefinitions := some [] })
          alternativeTranslations := resp.alternativeTranslations
          warnings := some [dictionaryUnavailableWarning] } := by
    unfold hybridTranslate
    rw [h1]
    simp [h2]
  refine ⟨hmain, ?_⟩
  intro r hr w hw
  rw [hmain] at hr
  injection hr with h3
  subst h3
  rcases List.mem_map.mp hw with ⟨orig, _, rfl⟩
  rfl

/-- Witness for C1's amended theorem at the concrete failing dictionary. -/
theorem hybrid_dict_failure_no_partial_merge_witness :
    (hybridTranslate mockLlm failingDict "x").1 =
      Except.ok
        { originalText := normalizeToLines "x"
          iastText := normalizeToLines "x"
          words := mockLlmResponse.words.map
            (fun w => { w with dictionaryDefinitions := some [] })
          alternativeTranslations := mockLlmResponse.alternativeTranslations
          warnings := some [dictionaryUnavailableWarning] } :=
  (hybrid_dict_failure_no_partial_merge mockLlm failingDict "x" mockLlmResponse
    "Dictionary API unavailable" rfl rfl).1

/-- C3: given a resolved model reply, the returned `warnings` is `none`
exactly when the dictionary call succeeded and is the fixed single-element
list exactly when it failed; the fixed message names the dictionary
collaborator and the LLM-only degraded mode. -/
theorem hybrid_warnings_characterization
    (llm : String → Except String LlmTranslationResponse)
    (dict : List String → Except String (List (String × List DictionaryDefinition)))
    (sutra : String) (resp : LlmTranslationResponse)
    (h : llm sutra = Except.ok resp) :
    (hybridTranslate llm dict sutra).1.map (fun r => r.warnings) =
      Except.ok
        (match dict (resp.words.map (fun w => w.word)) with
         | Except.ok _ => none
         | Except.error _ => some [dictionaryUnavailableWarning]) ∧
    "Dictionary".data <:+: dictionaryUnavailableWarning.data ∧
    "LLM-only".data <:+: dictionaryUnavailableWarning.data := by
  refine ⟨?_, by decide, by decide⟩
  unfold hybridTranslate
  rw [h]
  cases hd : dict (resp.words.map (fun w => w.word)) <;> simp [hd, Except.map]

/-- Witness for C3 with the failing dictionary port: `warnings` is the fixed
single-element list. -/
theorem hybrid_warnings_characterization_witness :
    (hybridTranslate mockLlm failingDict "x").1.map (fun r => r.warnings) =
      Except.ok
        (match failingDict (mockLlmResponse.words.map (fun w => w.word)) with
         | Except.ok _ => none
         | Except.error _ => some [dictionaryUnavailableWarning]) :=
  (hybrid_warnings_characterization mockLlm failingDict "x" mockLlmResponse rfl).1

/-- C10: on the success path the i-th output entry is the i-th model entry
with only `dictionaryDefinitions` added, set to the batch map's value for the
entry's own `word` field (empty list when absent); count and order are
preserved, and entries with equal `word` fields get identical definition
lists. -/
theorem hybrid_merge_spec
    (llm : String → Except String LlmTranslationResponse)
    (dict : List String → Except String (List (String × List DictionaryDefinition)))
    (sutra : String) (resp : LlmTranslationResponse)
    (m : List (String × List DictionaryDefinition))
    (h1 : llm sutra = Except.ok resp)
    (h2 : dict (resp.words.map (fun w => w.word)) = Except.ok m) :
    (hybridTranslate llm dict sutra).1 =
      Except.ok
        { originalText := normalizeToLines sutra
          iastText := normalizeToLines sutra
          words := resp.words.map (fun w =>
            { w with dictionaryDefinitions := some ((m.lookup w.word).getD []) })
          alternativeTranslations := resp.alternativeTranslations
          warnings := none } ∧
    (∀ r, (hybridTranslate llm dict sutra).1 = Except.ok r →
      r.words.length = resp.words.length ∧
      (∀ (i : Nat), r.words[i]? = (resp.words[i]?).map (fun (w : WordEntry) =>
        { w with dictionaryDefinitions := some ((m.lookup w.word).getD []) })) ∧
      (∀ w ∈ r.words, w.dictionaryDefinitions = some ((m.lookup w.word).getD [])) ∧
      (∀ w1 ∈ r.words, ∀ w2 ∈ r.words, w1.word = w2.word →
        w1.dictionaryDefinitions = w2.dictionaryDefinitions)) := by
  have hmain : (hybridTranslate llm dict sutra).1 =
      Except.ok
        { originalText := normalizeToLines sutra
          iastText := normalizeToLines sutra
          words := resp.words.map (fun w =>
            { w with dictionaryDefinitions := some ((m.lookup w.word).getD []) })
          alternativeTranslations := resp.alternativeTranslations
          warnings := none } := by
    unfold hybridTranslate
    rw [h1]
    simp [h2]
  refine ⟨hmain, ?_⟩
  intro r hr
  rw [hmain] at hr
  injection hr with h3
  subst h3
  refine ⟨by simp, fun i => by simp, ?_, ?_⟩
  · intro w hw
    rcases List.mem_map.mp hw with ⟨orig, _, rfl⟩
    rfl
  · intro w1 h1w w2 h2w heq
    rcases List.mem_map.mp h1w with ⟨o1, _, rfl⟩
    rcases List.mem_map.mp h2w with ⟨o2, _, rfl⟩
    simp at heq ⊢
    rw [heq]

/-- Witness for C10 at the concrete collaborators of Scenario A. -/
theorem hybrid_merge_spec_witness :
    (hybridTranslate mockLlm okDict "x").1 =
      Except.ok
        { originalText := normalizeToLines "x"
          iastText := normalizeToLines "x"
          words := mockLlmResponse.words.map (fun w =>
            { w with dictionaryDefinitions := some ((okDictMap.lookup w.word).getD []) })
          alternativeTranslations := mockLlmResponse.alternativeTranslations
          warnings := none } :=
  (hybrid_merge_spec mockLlm okDict "x" mockLlmResponse okDictMap rfl rfl).1

/-- C9 counterexample: a raw line with surrounding blanks is kept verbatim
(filtered on its trimmed form but not itself trimmed), so the kept element
`" a "` is not a trimmed string. -/
theorem normalizing_untrimmed_elements_counterexample :
    ((normalizingTranslate (normalize isLatinModel id)
        (hybridTranslate mockLlm okDict) " a \nb").1).map (fun r => r.originalText) =
      Except.ok [" a ", "b"] ∧
    jsTrim " a " ≠ " a " := by
  exact ⟨rfl, by decide⟩

/-- C9 as amended: `originalText`/`iastText` are always arrays obtained by
splitting the raw and the normalized input on newlines and keeping, verbatim
and in original order, exactly the lines that are non-empty after trimming
(the kept elements are not themselves trimmed). -/
theorem normalizing_line_arrays
    (isLatin : Char → Bool) (toIast : String → String)
    (llm : String → Except String LlmTranslationResponse)
    (dict : List String → Except String (List (String × List DictionaryDefinition)))
    (sutra si : String) (os : ScriptType) (r : TranslationResult) (log : CallLog)
    (h1 : normalize isLatin toIast sutra = NormalizationResult.success si os)
    (h2 : hybridTranslate llm dict si = (Except.ok r, log)) :
    (normalizingTranslate (normalize isLatin toIast) (hybridTranslate llm dict) sutra).1 =
      Except.ok
        { r with
          originalText := normalizeToLines sutra
          iastText := normalizeToLines si } ∧
    List.Sublist (normalizeToLines sutra) (jsSplitNewline sutra) ∧
    List.Sublist (normalizeToLines si) (jsSplitNewline si) ∧
    (∀ l ∈ normalizeToLines sutra, 0 < (jsTrim l).length) ∧
    (∀ l ∈ normalizeToLines si, 0 < (jsTrim l).length) := by
  refine ⟨?_, List.filter_sublist _, List.filter_sublist _, ?_, ?_⟩
  · unfold normalizingTranslate
    rw [h1]
    simp [h2]
  · intro l hl
    simpa using (List.mem_filter.mp hl).2
  · intro l hl
    simpa using (List.mem_filter.mp hl).2

/-- Witness for C9's amended theorem on a two-line input (Scenario C): both
fields are the length-2 array of the two lines. -/
theorem normalizing_line_arrays_witness :
    (normalizingTranslate (normalize isLatinModel id)
        (hybridTranslate mockLlm okDict) "x\ny").1 =
      Except.ok
        { originalText := normalizeToLines "x\ny"
          iastText := normalizeToLines "x\ny"
          words := [{ word := "a", grammaticalForm := some "g", meanings := ["m"],
                      dictionaryDefinitions :=
                        some [{ source := "PWG Dictionary", definition := "union" }],
                      contextualNote := some "n" }]
          alternativeTranslations := some ["alt"]
          warnings := none } ∧
    (normalizeToLines "x\ny").length = 2 := by
  refine ⟨?_, by decide⟩
  exact (normalizing_line_arrays isLatinModel id mockLlm okDict "x\ny" "x\ny"
    ScriptType.iast
    { originalText := ["x", "y"]
      iastText := ["x", "y"]
      words := [{ word := "a", grammaticalForm := some "g", meanings := ["m"],
                  dictionaryDefinitions :=
                    some [{ source := "PWG Dictionary", definition := "union" }],
                  contextualNote := some "n" }]
      alternativeTranslations := some ["alt"]
      warnings := none }
    { llmCalls := ["x\ny"], dictCalls := [["a"]] } rfl rfl).1

/-- C8: the model-reply parser is total (an embedding value is always
returned, never an unstructured exception) and rejects only with one of the
four fixed failure messages; each pipeline stage short-circuits: no textual
content yields the empty-response message, a non-JSON extracted payload the
parse-failure message, JSON without a `words` array the message containing
"missing words array", and an entry missing a required key the invalid-entry
message; the four messages are pairwise distinct. -/
theorem parser_failure_taxonomy (jsonParse : String → Option Json)
    (response : AnthropicMessage) :
    ((∃ r, parseResponse jsonParse response = Except.ok r) ∨
      parseResponse jsonParse response = Except.error emptyResponseMessage ∨
      parseResponse jsonParse response = Except.error parseFailureMessage ∨
      parseResponse jsonParse response = Except.error missingWordsMessage ∨
      parseResponse jsonParse response = Except.error invalidEntryMessage) ∧
    (response.content = [] →
      parseResponse jsonParse response = Except.error emptyResponseMessage) ∧
    (findTextBlock response.content = none →
      parseResponse jsonParse response = Except.error emptyResponseMessage) ∧
    (∀ body, findTextBlock response.content = some body →
      jsonParse (extractJson body) = none →
      parseResponse jsonParse response = Except.error parseFailureMessage) ∧
    (∀ body parsed, findTextBlock response.content = some body →
      jsonParse (extractJson body) = some parsed → wordsField parsed = none →
      parseResponse jsonParse response = Except.error missingWordsMessage) ∧
    (∀ body parsed ws e, findTextBlock response.content = some body →
      jsonParse (extractJson body) = some parsed → wordsField parsed = some ws →
      ws.mapM validateWordEntry = Except.error e →
      parseResponse jsonParse response = Except.error invalidEntryMessage) ∧
    (∀ entry e, validateWordEntry entry = Except.error e → e = invalidEntryMessage) ∧
    (emptyResponseMessage ≠ parseFailureMessage ∧
      emptyResponseMessage ≠ missingWordsMessage ∧
      emptyResponseMessage ≠ invalidEntryMessage ∧
      parseFailureMessage ≠ missingWordsMessage ∧
      parseFailureMessage ≠ invalidEntryMessage ∧
      missingWordsMessage ≠ invalidEntryMessage) := by
  have hnonempty : ∀ body, findTextBlock response.content = some body →
      response.content.isEmpty = false := by
    intro body hf
    cases hcc : response.content with
    | nil => rw [hcc] at hf; exact Option.noConfusion hf
    | cons a l => rfl
  have hempty1 : response.content = [] →
      parseResponse jsonParse response = Except.error emptyResponseMessage := by
    intro hc
    unfold parseResponse
    simp [hc]
  have hempty2 : findTextBlock response.content = none →
      parseResponse jsonParse response = Except.error emptyResponseMessage := by
    intro hf
    unfold parseResponse
    by_cases hc : response.content.isEmpty
    · simp [hc]
    · simp [hc, hf]
  have hparse : ∀ body, findTextBlock response.content = some body →
      jsonParse (extractJson body) = none →
      parseResponse jsonParse response = Except.error parseFailureMessage := by
    intro body hf hj
    unfold parseResponse
    simp [hnonempty body hf, hf, hj]
  have hwords : ∀ body parsed, findTextBlock response.content = some body →
      jsonParse (extractJson body) = some parsed → wordsField parsed = none →
      parseResponse jsonParse response = Except.error missingWordsMessage := by
    intro body parsed hf hj hw
    unfold parseResponse validateResponse
    simp [hnonempty body hf, hf, hj, hw]
  have hentry : ∀ body parsed ws e, findTextBlock response.content = some body →
      jsonParse (extractJson body) = some parsed → wordsField parsed = some ws →
      ws.mapM validateWordEntry = Except.error e →
      parseResponse jsonParse response = Except.error invalidEntryMessage := by
    intro body parsed ws e hf hj hw hm
    rcases exceptMapM_error validateWordEntry ws e hm with ⟨a, _, ha⟩
    have he : e = invalidEntryMessage := validateWordEntry_error_msg a e ha
    subst he
    have hv : validateResponse parsed = Except.error invalidEntryMessage := by
      unfold validateResponse
      rw [hw]
      show (match ws.mapM validateWordEntry with
            | Except.error e => Except.error e
            | Except.ok entries =>
              Except.ok ({ words := entries, alternativeTranslations := none } :
                LlmTranslationResponse)) =
          Except.error invalidEntryMessage
      rw [hm]
    unfold parseResponse
    simp [hnonempty body hf, hf, hj, hv]
  refine ⟨?_, hempty1, hempty2, hparse, hwords, hentry,
    (fun entry e h => validateWordEntry_error_msg entry e h), by decide⟩
  by_cases hc : response.content.isEmpty
  · refine Or.inr (Or.inl ?_)
    unfold parseResponse
    simp [hc]
  · cases hf : findTextBlock response.content with
    | none => exact Or.inr (Or.inl (hempty2 hf))
    | some body =>
      cases hj : jsonParse (extractJson body) with
      | none => exact Or.inr (Or.inr (Or.inl (hparse body hf hj)))
      | some parsed =>
        cases hw : wordsField parsed with
        | none => exact Or.inr (Or.inr (Or.inr (Or.inl (hwords body parsed hf hj hw))))
        | some ws =>
          cases hm : ws.mapM validateWordEntry with
          | error e =>
            exact Or.inr (Or.inr (Or.inr (Or.inr (hentry body parsed ws e hf hj hw hm))))
          | ok entries =>
            refine Or.inl ⟨{ words := entries, alternativeTranslations := none }, ?_⟩
            have hv : validateResponse parsed =
                Except.ok { words := entries, alternativeTranslations := none } := by
              unfold validateResponse
              rw [hw]
              show (match ws.mapM validateWordEntry with
                    | Except.error e => Except.error e
                    | Except.ok entries =>
                      Except.ok ({ words := entries, alternativeTranslations := none } :
                        LlmTranslationResponse)) =
                  Except.ok ({ words := entries, alternativeTranslations := none } :
                    LlmTranslationResponse)
              rw [hm]
            unfold parseResponse
            simp [hc, hf, hj, hv]

/-- Witness for C8: the taxonomy instantiated at the concrete `JSON.parse`
stand-in and a one-block reply whose payload parses to an object without a
`words` array. -/
theorem parser_failure_taxonomy_witness :
    (∃ r, parseResponse jsonParseModel { content := [ContentBlock.text "obj"] } =
        Except.ok r) ∨
    parseResponse jsonParseModel { content := [ContentBlock.text "obj"] } =
      Except.error emptyResponseMessage ∨
    parseResponse jsonParseModel { content := [ContentBlock.text "obj"] } =
      Except.error parseFailureMessage ∨
    parseResponse jsonParseModel { content := [ContentBlock.text "obj"] } =
      Except.error missingWordsMessage ∨
    parseResponse jsonParseModel { content := [ContentBlock.text "obj"] } =
      Except.error invalidEntryMessage :=
  (parser_failure_taxonomy jsonParseModel { content := [ContentBlock.text "obj"] }).1

/-- C4 counterexample: a validated reply whose parsed JSON carries both a
`contextualNote` on its entry and an `alternativeTranslations` list, yet the
parser output has neither — the contextual note is not passed through and the
alternatives are dropped. -/
theorem validateResponse_drops_note_and_alternatives :
    jsonField noteParsedJson "alternativeTranslations" = some (Json.arr [Json.str "alt"]) ∧
    jsonField noteEntryJson "contextualNote" = some (Json.str "n") ∧
    validateResponse noteParsedJson = Except.ok noteParsedResponse ∧
    noteParsedResponse.alternativeTranslations = none ∧
    noteParsedResponse.words.map (fun w => w.contextualNote) = [none] := by
  exact ⟨rfl, rfl, rfl, rfl, rfl⟩

/-- C4 as amended: a successfully validated reply yields exactly the ordered
entry list obtained from the `words` array (length preserved), and the parser
output never carries `alternativeTranslations`, a `contextualNote`, or
`dictionaryDefinitions`, even when the parsed JSON supplies such fields. -/
theorem validateResponse_output_shape (parsed : Json) (r : LlmTranslationResponse)
    (h : validateResponse parsed = Except.ok r) :
    r.alternativeTranslations = none ∧
    (∀ w ∈ r.words, w.contextualNote = none ∧ w.dictionaryDefinitions = none ∧
      w.grammaticalForm.isSome = true) ∧
    (∃ ws, wordsField parsed = some ws ∧ ws.mapM validateWordEntry = Except.ok r.words ∧
      r.words.length = ws.length) := by
  unfold validateResponse at h
  cases hw : wordsField parsed with
  | none =>
    rw [hw] at h
    exact Except.noConfusion h
  | some ws =>
    rw [hw] at h
    replace h :
        (match ws.mapM validateWordEntry with
          | Except.error e => Except.error e
          | Except.ok entries =>
            Except.ok ({ words := entries, alternativeTranslations := none } :
              LlmTranslationResponse)) =
        Except.ok r := h
    cases hm : ws.mapM validateWordEntry with
    | error e =>
      rw [hm] at h
      exact Except.noConfusion h
    | ok entries =>
      rw [hm] at h
      injection h with h2
      subst h2
      refine ⟨rfl, ?_, ws, rfl, hm, exceptMapM_ok_length validateWordEntry ws entries hm⟩
      intro w hwmem
      rcases exceptMapM_ok_mem validateWordEntry ws entries hm w hwmem with ⟨a, _, ha⟩
      exact validateWordEntry_ok_shape a w ha

/-- Witness for C4's amended theorem at the concrete note-carrying reply. -/
theorem validateResponse_output_shape_witness :
    noteParsedResponse.alternativeTranslations = none ∧
    (∀ w ∈ noteParsedResponse.words, w.contextualNote = none ∧
      w.dictionaryDefinitions = none ∧ w.grammaticalForm.isSome = true) ∧
    (∃ ws, wordsField noteParsedJson = some ws ∧
      ws.mapM validateWordEntry = Except.ok noteParsedResponse.words ∧
      noteParsedResponse.words.length = ws.length) :=
  validateResponse_output_shape noteParsedJson noteParsedResponse rfl

end Sanskrit
